import Mathlib

/-!
# Verification of the side-panel run orchestrator

A shallow embedding of `extensionV3/sidepanel.js` from the
`yt_emotion_dashboard` repository: the single-flight run orchestrator
(`safeStartAnalysis` / `sendTranscriptToBackend`), the presentation layer
(`updateResultsUI`, `showError`, `showInitialView`), and the YouTube URL
watcher (`monitorYouTubeVideoChange`).

The asynchronous control flow is modelled as a labelled transition system:
each invocation of the pipeline is a `Task` suspended at one of its `await`
points (`Phase`), and every resolution of an awaited promise is a transition
whose environment-chosen outcome (tab found or not, extraction result and
duration, fetch outcome, JSON parse result) is carried by the transition's
`Action` label.  JavaScript is single threaded, so the code between two
`await`s executes atomically; each such block is one transition function.
-/

namespace SidePanel

/-! ## Analysis payload

The backend's JSON result.  `sidepanel.js` reads `data.compassion_vs_contempt`,
`data.safety_vs_threat` and `data.reporting_vs_opinion`, each an object with a
numeric `score` (-5..+5, possibly fractional, modelled as `ℚ`) and a string
`rationale`; each dimension may be absent. -/

structure DimensionData where
  score : ℚ
  rationale : String
deriving DecidableEq

structure AnalysisData where
  compassion_vs_contempt : Option DimensionData
  safety_vs_threat : Option DimensionData
  reporting_vs_opinion : Option DimensionData
deriving DecidableEq

/-! ## DOM model for the presentation layer

One record per DOM element the script mutates.  The needle endpoint
`(x2, y2)` computed at lines 224-227 of `sidepanel.js` is
`(130 + 80·cos θ, 60 - 80·sin θ)` for the angle `θ` computed from the display
score; since the endpoint is a fixed injective function of that angle we store
the angle itself (`resultNeedleAngle`), avoiding transcendental functions.
The text shown by `score-value-label` is a fixed function of `score`
(`toFixed` formatting); it is carried by the stored `score`. -/

structure DimensionItem where
  key : String
  leftLabel : String
  rightLabel : String
  magnitudePct : ℚ
  score : ℚ
  rationale : String
deriving DecidableEq

structure ResultsDom where
  /-- which `.view` element is displayed (`showView`) -/
  view : String
  /-- `#error`: text while displayed, `none` when hidden -/
  errorVisible : Option String
  /-- `#gauge-status` text -/
  gaugeStatus : String
  /-- `#gauge-spinner` display -/
  spinnerShown : Bool
  /-- `#gauge-status-result` text -/
  statusLabel : String
  /-- `#warning-line` display -/
  warningShown : Bool
  /-- `#warning-line` text -/
  warningText : String
  /-- `#details` display -/
  detailsShown : Bool
  /-- `#learn-more` text -/
  learnMoreText : String
  /-- `#gauge-score` text -/
  gaugeScoreText : String
  /-- `#llm-compassion-rationale` text -/
  compassionRationale : String
  /-- children of `#llm-dimension-list` -/
  dimensionList : List DimensionItem
  /-- `#calc-gaugeNeedle` display -/
  calcNeedleShown : Bool
  /-- `#calc-gaugeHub` display -/
  calcHubShown : Bool
  /-- `#result-gaugeNeedle`: needle angle while displayed, `none` when hidden -/
  resultNeedleAngle : Option ℚ
  /-- `#result-gaugeHub` display -/
  resultHubShown : Bool
deriving DecidableEq

/-- JavaScript `Math.round`: round half toward positive infinity. -/
def jsRound (q : ℚ) : ℤ := ⌊q + 1/2⌋

/-- The gauge status label thresholds, lines 247-252. -/
def gaugeLabel (raw : ℚ) : String :=
  if raw ≤ -3 then "High Contempt"
  else if raw < -1 then "Moderate Contempt"
  else if raw ≤ 1 then "Neutral"
  else if raw < 3 then "Moderate Respect"
  else "High Respect"

/-- The warning text shown when `rawScore < -2`, lines 256-261. -/
def contemptWarning : String :=
  "Contempt levels in this video are above your usual average."

/-- The per-dimension labels table, lines 267-270. -/
def dimensionLabels (key : String) : String × String :=
  if key = "safety_vs_threat" then ("Threat", "Safety")
  else ("Opinion", "Fact")

/-- Build one `dimension-item` element, lines 276-311. -/
def mkDimensionItem (key : String) (item : DimensionData) : DimensionItem :=
  let score := item.score
  let magnitudePct : ℚ := (|score| / 5) * 50
  { key := key
    leftLabel := (dimensionLabels key).1
    rightLabel := (dimensionLabels key).2
    magnitudePct := magnitudePct
    score := score
    rationale := item.rationale }

/-- Look up a dimension of the payload by its key string (the
`['safety_vs_threat', 'reporting_vs_opinion'].forEach` loop reads
`data[key]`). -/
def dimOf (data : AnalysisData) (key : String) : Option DimensionData :=
  if key = "safety_vs_threat" then data.safety_vs_threat
  else if key = "reporting_vs_opinion" then data.reporting_vs_opinion
  else none

/-- `updateResultsUI(data)`, lines 216-315.  The gauge section runs only when
`data.compassion_vs_contempt` is present; the metrics section *appends* one
`dimension-item` per present dimension to `#llm-dimension-list`
(`listEl.appendChild(el)` at line 312 — the list is never cleared here). -/
def updateResultsUI (data : AnalysisData) (d0 : ResultsDom) : ResultsDom :=
  -- Gauge, lines 218-262
  let d1 :=
    match data.compassion_vs_contempt with
    | none => d0
    | some cd =>
      let rawScore := cd.score
      let displayScore : ℤ := jsRound (((rawScore + 5) / 10) * 100)
      let angle : ℚ := 225 - ((displayScore : ℚ) / 100) * 270
      { d0 with
        resultNeedleAngle := some angle
        resultHubShown := true
        compassionRationale := cd.rationale
        gaugeStatus := ""
        spinnerShown := false
        statusLabel := gaugeLabel rawScore
        warningShown := rawScore < -2
        warningText := if rawScore < -2 then contemptWarning else "" }
  -- Other metrics, lines 265-314
  let items := ["safety_vs_threat", "reporting_vs_opinion"].filterMap fun key =>
    (dimOf data key).map (mkDimensionItem key)
  { d1 with dimensionList := d1.dimensionList ++ items }

/-- `resetResultsDomPlaceholders()`, lines 43-56. -/
def resetResultsDomPlaceholders (d : ResultsDom) : ResultsDom :=
  { d with
    gaugeScoreText := "--"
    statusLabel := ""
    compassionRationale := ""
    dimensionList := []
    calcNeedleShown := false
    calcHubShown := false }

/-- `showError(msg)`, lines 318-323. -/
def showErrorDom (msg : String) (d : ResultsDom) : ResultsDom :=
  { d with errorVisible := some msg, spinnerShown := false, gaugeStatus := "" }

/-- `showInitialView()`, lines 58-70: `showView('initial-view')`, `hideError()`,
the loading indicator resets, then `resetResultsDomPlaceholders()`. -/
def showInitialViewDom (d : ResultsDom) : ResultsDom :=
  resetResultsDomPlaceholders
    { d with
      view := "initial-view"
      errorVisible := none
      gaugeStatus := "Calculating"
      spinnerShown := true
      statusLabel := ""
      warningShown := false
      detailsShown := false
      learnMoreText := "Learn More" }

/-! ## Orchestrator state

A run of `safeStartAnalysis` is a `Task`: its captured `thisRun` token plus
the `await` point it is currently suspended at.  `OState` holds the module
state declared at lines 5-11 plus observation logs: `renders` records every
`updateResultsUI` invocation performed through the pipeline (stage 3
success-render), `errors` records every `showError` invocation made by the
orchestrator, and `aborts` records every `inFlightController.abort()` call
(by the run token the aborted controller was created for). -/

inductive Phase where
  /-- suspended at `await chrome.tabs.query(...)`, line 107 -/
  | query
  /-- suspended at `await withTimeout(chrome.tabs.sendMessage ...)`, line 110 -/
  | extract
  /-- suspended at `await fetch(...)`, line 149 -/
  | fetchP
  /-- suspended at `await response.json()` in the `!response.ok` branch, line 167 -/
  | jsonFail
  /-- suspended at `await response.json()`, line 171 -/
  | jsonOk
  /-- suspended at `await renderFreshResults(...)` waiting for
      `requestAnimationFrame`, lines 179 and 203 -/
  | raf (data : AnalysisData)
deriving DecidableEq

structure Task where
  thisRun : ℕ
  phase : Phase
deriving DecidableEq

structure OState where
  /-- `isAnalyzing`, line 8 -/
  isAnalyzing : Bool
  /-- `latestRunId`, line 10 -/
  latestRunId : ℕ
  /-- `inFlightController`, line 11: the run token the live controller was
      created for, `none` when the variable is `null` -/
  inFlightController : Option ℕ
  /-- `originalTranscript`, line 6 -/
  originalTranscript : String
  /-- `lastAnalysisData`, line 5 -/
  lastAnalysisData : Option AnalysisData
  /-- suspended pipeline invocations -/
  tasks : List Task
  /-- log of stage-3 success renders `(thisRun, data)`, newest first -/
  renders : List (ℕ × AnalysisData)
  /-- log of `showError` messages, newest first -/
  errors : List String
  /-- log of `inFlightController.abort()` calls, newest first -/
  aborts : List ℕ
  /-- the presentation layer's DOM -/
  dom : ResultsDom
  /-- `lastUrl`, line 335 -/
  lastUrl : Option String
  /-- `lastVideoId`, line 334 -/
  lastVideoId : Option String
  /-- whether `watchTimer` holds a pending (not yet fired) debounce timeout -/
  watchTimerArmed : Bool
deriving DecidableEq

/-- The extraction timeout bound, line 112. -/
def extractTimeoutMs : ℕ := 15000

/-- The extraction timeout message, line 113. -/
def extractTimeoutMsg : String :=
  "Transcript request timed out. Make sure the video is playing and captions exist."

/-- The watcher's debounce delay, line 363. -/
def debounceMs : ℕ := 600

/-- The watcher's polling interval, line 370. -/
def pollIntervalMs : ℕ := 1000

/-- `withTimeout(promise, ms, msg)`, lines 72-78: a race between the promise
and a `setTimeout` rejection.  The environment tells us when the wrapped
promise settles (`duration`) and with what (`settle`: `.ok` a resolution,
`.error` a rejection message); the race yields the timeout rejection exactly
when the timer fires first. -/
def withTimeout {α : Type} (settle : Except String α) (duration ms : ℕ)
    (msg : String) : Except String α :=
  if ms < duration then .error msg else settle

/-- JavaScript `x || dflt` for a possibly-missing string (`response?.error`,
`detail`): the empty string is falsy. -/
def jsOrElse (x : Option String) (dflt : String) : String :=
  match x with
  | some v => if v = "" then dflt else v
  | none => dflt

/-- The synchronous prefix of an accepted `safeStartAnalysis` call,
lines 88-104: abort and null any in-flight controller, set
`isAnalyzing = true`, increment `latestRunId`, capture `thisRun`, call
`showInitialView()`, and suspend at the `chrome.tabs.query` await. -/
def acceptRun (s : OState) : OState :=
  let newId := s.latestRunId + 1
  { s with
    aborts := match s.inFlightController with
      | some owner => owner :: s.aborts
      | none => s.aborts
    inFlightController := none
    isAnalyzing := true
    latestRunId := newId
    dom := showInitialViewDom s.dom
    tasks := ⟨newId, .query⟩ :: s.tasks }

/-- `safeStartAnalysis(reason)` called from a manual trigger or the one-off
`auto-init` timeout, lines 81-104: busy-reject when `isAnalyzing` (line 83,
only a `console.log`, no state change), otherwise accept. -/
def triggerStep (s : OState) : OState :=
  if s.isAnalyzing then s else acceptRun s

/-- The `finally` block of `safeStartAnalysis`, lines 130-138: the task
finishes; `isAnalyzing` is cleared only if this run is still the latest. -/
def finishRun (s : OState) (r : ℕ) (rest : List Task) : OState :=
  { s with
    tasks := rest
    isAnalyzing := if r = s.latestRunId then false else s.isAnalyzing }

/-- An error thrown inside `safeStartAnalysis`'s `try`: the `catch` calls
`showError(msg)` (line 129), then the `finally` runs. -/
def failRun (s : OState) (r : ℕ) (rest : List Task) (msg : String) : OState :=
  finishRun
    { s with dom := showErrorDom msg s.dom, errors := msg :: s.errors } r rest

/-- Resolution of the `chrome.tabs.query` await, lines 107-110: with no
active tab, `throw new Error("Could not find active tab.")`; otherwise
suspend at the extraction await. -/
def queryStep (s : OState) (r : ℕ) (rest : List Task) (found : Bool) : OState :=
  if found then { s with tasks := ⟨r, .extract⟩ :: rest }
  else failRun s r rest "Could not find active tab."

/-- What `chrome.tabs.sendMessage` resolves with: possibly no response at
all (`response?.`), else `{success, transcript?, error?}`. -/
structure ScrapeResponse where
  success : Bool
  transcript : String
  error : Option String
deriving DecidableEq

/-- Resolution of the `withTimeout`-wrapped extraction await, lines 110-127:
on rejection (timeout or messaging failure) the `catch`/`finally` run; on
resolution, the staleness checkpoint at line 117 (return without touching
state — the conditional `finally` release does not fire for a stale run),
then either enter `sendTranscriptToBackend` (whose synchronous prefix,
lines 143-146, creates the fresh `AbortController` and suspends at the
`fetch` await) or throw `response?.error || "Failed to get transcript."`. -/
def extractStep (s : OState) (r : ℕ) (rest : List Task)
    (settle : Except String (Option ScrapeResponse)) (duration : ℕ) : OState :=
  match withTimeout settle duration extractTimeoutMs extractTimeoutMsg with
  | .error msg => failRun s r rest msg
  | .ok resp =>
    if r ≠ s.latestRunId then finishRun s r rest
    else
      match resp with
      | some resp' =>
        if resp'.success then
          { s with
            originalTranscript := resp'.transcript
            inFlightController := some r
            tasks := ⟨r, .fetchP⟩ :: rest }
        else failRun s r rest (jsOrElse resp'.error "Failed to get transcript.")
      | none => failRun s r rest "Failed to get transcript."

/-- How the `fetch` await settles: an abort rejection, another rejection
(network error), or a response with an `ok` status flag. -/
inductive FetchOutcome where
  | abortError
  | netError (msg : String)
  | resp (ok : Bool)
deriving DecidableEq

/-- `sendTranscriptToBackend`'s `finally` (line 197: null the controller)
followed by `safeStartAnalysis`'s `finally` — the promise-resolution
continuations between them admit no interleaving (microtask boundary), so
they form one atomic step suffix. -/
def finishBackend (s : OState) (r : ℕ) (rest : List Task) : OState :=
  finishRun { s with inFlightController := none } r rest

/-- A non-abort error inside `sendTranscriptToBackend`: its `catch` calls
`showError(msg)` (line 194) and swallows the error, then both `finally`
blocks run. -/
def failBackend (s : OState) (r : ℕ) (rest : List Task) (msg : String) : OState :=
  finishBackend
    { s with dom := showErrorDom msg s.dom, errors := msg :: s.errors } r rest

/-- Resolution of the `fetch` await, lines 149-168 and 189-198: an
`AbortError` rejection is silent (lines 190-193); any other rejection is a
user-visible error; on a response, the staleness checkpoint at line 160,
then suspend at the appropriate `response.json()` await depending on
`response.ok`. -/
def fetchStep (s : OState) (r : ℕ) (rest : List Task) (outcome : FetchOutcome) :
    OState :=
  match outcome with
  | .abortError => finishBackend s r rest
  | .netError msg => failBackend s r rest msg
  | .resp ok =>
    if r ≠ s.latestRunId then finishBackend s r rest
    else if ok then { s with tasks := ⟨r, .jsonOk⟩ :: rest }
    else { s with tasks := ⟨r, .jsonFail⟩ :: rest }

/-- Resolution of the `response.json()` await in the `!response.ok` branch,
lines 166-168: `detail` is the parsed `detail` field when parsing succeeded
(`none` when it rejected — the empty `catch {}` leaves `detail = ''`), and
`throw new Error(detail || 'Backend error.')` reaches the outer catch. -/
def jsonFailStep (s : OState) (r : ℕ) (rest : List Task)
    (detail : Option String) : OState :=
  failBackend s r rest (jsOrElse detail "Backend error.")

/-- Resolution of the `response.json()` await at line 171: on a parse
rejection the outer catch shows the error; on success `lastAnalysisData` is
assigned (before the staleness check!), then the checkpoint at line 173,
then `renderFreshResults` suspends waiting for `requestAnimationFrame`. -/
def jsonOkStep (s : OState) (r : ℕ) (rest : List Task)
    (res : Except String AnalysisData) : OState :=
  match res with
  | .error msg => failBackend s r rest msg
  | .ok data =>
    let s1 := { s with lastAnalysisData := some data }
    if r ≠ s1.latestRunId then finishBackend s1 r rest
    else { s1 with tasks := ⟨r, .raf data⟩ :: rest }

/-- The `requestAnimationFrame` callback, lines 203-211, together with the
post-await code of `sendTranscriptToBackend`, lines 181-187 (the promise
resolves and its continuation runs on the microtask queue, so no other
transition can interleave): the staleness checkpoint inside the callback
(line 204), `updateResultsUI(data)`, the checkpoint at line 181, then
`showView('results-view')` and both `finally` blocks. -/
def rafStep (s : OState) (r : ℕ) (rest : List Task) (data : AnalysisData) :
    OState :=
  if r ≠ s.latestRunId then finishBackend s r rest
  else
    finishBackend
      { s with
        dom := { (updateResultsUI data s.dom) with view := "results-view" }
        renders := (r, data) :: s.renders } r rest

/-! ## The YouTube URL watcher, lines 333-371 -/

/-- Leftmost match of the regex `[?&]v=([^&]+)` over a character list: find a
`?` or `&` followed by `v=` and at least one non-`&` character; capture up to
the next `&`. -/
def vParamAux : List Char → Option (List Char)
  | [] => none
  | c :: rest =>
    if c = '?' ∨ c = '&' then
      match rest with
      | 'v' :: '=' :: tail =>
        let seg := tail.takeWhile (· ≠ '&')
        if seg.isEmpty then vParamAux rest else some seg
      | _ => vParamAux rest
    else vParamAux rest

/-- Leftmost match of the regex `youtu\.be/([^?]+)`: find the literal
`youtu.be/` and capture at least one character up to the next `?`. -/
def ytBeAux : List Char → Option (List Char)
  | [] => none
  | c :: rest =>
    if List.isPrefixOf "youtu.be/".toList (c :: rest) then
      let seg := ((c :: rest).drop 9).takeWhile (· ≠ '?')
      if seg.isEmpty then ytBeAux rest else some seg
    else ytBeAux rest

/-- Lines 344-345: `url.match(/[?&]v=([^&]+)/) || url.match(/youtu\.be\/([^?]+)/)`,
taking the first capture group of whichever matches first. -/
def extractVideoId (url : String) : Option String :=
  match vParamAux url.toList with
  | some seg => some (String.mk seg)
  | none => (ytBeAux url.toList).map String.mk

/-- Whether `pat` occurs contiguously anywhere in `text` (an unanchored
literal-pattern test, scanning left to right as a regex engine does). -/
def containsSeq (pat : List Char) : List Char → Bool
  | [] => pat.isEmpty
  | c :: rest => List.isPrefixOf pat (c :: rest) || containsSeq pat rest

/-- Line 350: `/youtube\.com\/watch|youtu\.be\//.test(url)` — an unanchored
substring test. -/
def matchesWatchUrl (url : String) : Bool :=
  containsSeq "youtube.com/watch".toList url.toList
    || containsSeq "youtu.be/".toList url.toList

/-- Lines 347-348: `urlChanged || videoChanged` — the tab URL differs from
`lastUrl`, or a video id was extracted and differs from `lastVideoId`. -/
def changeDetected (s : OState) (url : String) : Bool :=
  let currentVideoId := extractVideoId url
  let urlChanged := decide (some url ≠ s.lastUrl)
  let videoChanged := currentVideoId.isSome && decide (currentVideoId ≠ s.lastVideoId)
  urlChanged || videoChanged

/-- One `monitorYouTubeVideoChange` poll tick, lines 338-368.  The
environment supplies the active tab's URL (`none`: no tab or no URL, line
341 returns).  When a URL or video-id change is detected *and* the URL
passes the YouTube test (line 350), the identifiers are recorded and the
debounce timer is (re)armed (`clearTimeout` + `setTimeout`, lines 355-363);
otherwise nothing happens. -/
def pollStep (s : OState) (url? : Option String) : OState :=
  match url? with
  | none => s
  | some url =>
    if changeDetected s url && matchesWatchUrl url then
      { s with
        lastUrl := some url
        lastVideoId := extractVideoId url
        watchTimerArmed := true }
    else s

/-- The debounce timer firing, lines 356-363: the timeout is consumed; if
`isAnalyzing` the request is dropped with only a log (no retry is
scheduled), otherwise `safeStartAnalysis('watcher')` runs, whose own busy
check passes. -/
def timerFireStep (s : OState) : OState :=
  let s1 := { s with watchTimerArmed := false }
  if s1.isAnalyzing then s1 else acceptRun s1

/-! ## Initial state and transition relation -/

/-- The static side panel DOM before any script writes (all indicators
hidden, all texts empty). -/
def baseDom : ResultsDom :=
  { view := ""
    errorVisible := none
    gaugeStatus := ""
    spinnerShown := false
    statusLabel := ""
    warningShown := false
    warningText := ""
    detailsShown := false
    learnMoreText := "Learn More"
    gaugeScoreText := "--"
    compassionRationale := ""
    dimensionList := []
    calcNeedleShown := false
    calcHubShown := false
    resultNeedleAngle := none
    resultHubShown := false }

/-- The state after the `DOMContentLoaded` handler's synchronous body
(lines 5-11 initialisations and the `showInitialView()` call at line 330);
the `auto-init` trigger of line 331 is a pending `trigger` action. -/
def initState : OState :=
  { isAnalyzing := false
    latestRunId := 0
    inFlightController := none
    originalTranscript := ""
    lastAnalysisData := none
    tasks := []
    renders := []
    errors := []
    aborts := []
    dom := showInitialViewDom baseDom
    lastUrl := none
    lastVideoId := none
    watchTimerArmed := false }

/-- Transition labels: which event fired and what the environment chose for
it. -/
inductive Action where
  /-- `safeStartAnalysis` from the button click or the `auto-init` timeout -/
  | trigger
  /-- the `chrome.tabs.query` promise of run `r` settles -/
  | queryRes (r : ℕ) (found : Bool)
  /-- the `withTimeout`-wrapped extraction promise of run `r` settles -/
  | extractRes (r : ℕ) (settle : Except String (Option ScrapeResponse))
      (duration : ℕ)
  /-- the `fetch` promise of run `r` settles -/
  | fetchRes (r : ℕ) (outcome : FetchOutcome)
  /-- the error-branch `response.json()` promise of run `r` settles -/
  | jsonFailRes (r : ℕ) (detail : Option String)
  /-- the success-branch `response.json()` promise of run `r` settles -/
  | jsonOkRes (r : ℕ) (res : Except String AnalysisData)
  /-- the `requestAnimationFrame` callback of run `r` fires -/
  | rafFire (r : ℕ) (data : AnalysisData)
  /-- a `monitorYouTubeVideoChange` poll tick -/
  | poll (url? : Option String)
  /-- the watcher's debounce timer fires -/
  | timerFire

/-- The labelled transition relation.  A task-resolution action requires the
corresponding task to be suspended in `s.tasks` (at an arbitrary position;
the surviving tasks are `pre ++ post`). -/
inductive Step : OState → Action → OState → Prop where
  | trigger (s : OState) : Step s .trigger (triggerStep s)
  | queryRes (s : OState) (r : ℕ) (pre post : List Task) (found : Bool)
      (h : s.tasks = pre ++ ⟨r, .query⟩ :: post) :
      Step s (.queryRes r found) (queryStep s r (pre ++ post) found)
  | extractRes (s : OState) (r : ℕ) (pre post : List Task)
      (settle : Except String (Option ScrapeResponse)) (duration : ℕ)
      (h : s.tasks = pre ++ ⟨r, .extract⟩ :: post) :
      Step s (.extractRes r settle duration)
        (extractStep s r (pre ++ post) settle duration)
  | fetchRes (s : OState) (r : ℕ) (pre post : List Task)
      (outcome : FetchOutcome) (h : s.tasks = pre ++ ⟨r, .fetchP⟩ :: post) :
      Step s (.fetchRes r outcome) (fetchStep s r (pre ++ post) outcome)
  | jsonFailRes (s : OState) (r : ℕ) (pre post : List Task)
      (detail : Option String) (h : s.tasks = pre ++ ⟨r, .jsonFail⟩ :: post) :
      Step s (.jsonFailRes r detail) (jsonFailStep s r (pre ++ post) detail)
  | jsonOkRes (s : OState) (r : ℕ) (pre post : List Task)
      (res : Except String AnalysisData)
      (h : s.tasks = pre ++ ⟨r, .jsonOk⟩ :: post) :
      Step s (.jsonOkRes r res) (jsonOkStep s r (pre ++ post) res)
  | rafFire (s : OState) (r : ℕ) (pre post : List Task) (data : AnalysisData)
      (h : s.tasks = pre ++ ⟨r, .raf data⟩ :: post) :
      Step s (.rafFire r data) (rafStep s r (pre ++ post) data)
  | poll (s : OState) (url? : Option String) :
      Step s (.poll url?) (pollStep s url?)
  | timerFire (s : OState) (h : s.watchTimerArmed = true) :
      Step s .timerFire (timerFireStep s)

/-- States reachable from `initState`. -/
inductive Reachable : OState → Prop where
  | init : Reachable initState
  | step {s : OState} {a : Action} {s' : OState} :
      Reachable s → Step s a s' → Reachable s'

/-! ## The single-flight invariant

The phases during which `sendTranscriptToBackend` is on the stack (the fresh
`AbortController` has been created and not yet nulled by its `finally`). -/

def fetchPhases : Phase → Bool
  | .fetchP => true
  | .jsonFail => true
  | .jsonOk => true
  | .raf _ => true
  | .query => false
  | .extract => false

/-- The key state invariant of the orchestrator: at most one pipeline
invocation is suspended at a time; any suspended invocation carries the
current `latestRunId`; `isAnalyzing` is set exactly while an invocation is
alive; and a non-null `inFlightController` belongs to a live invocation
currently inside `sendTranscriptToBackend`. -/
def Inv (s : OState) : Prop :=
  (∀ t ∈ s.tasks, t.thisRun = s.latestRunId)
  ∧ s.tasks.length ≤ 1
  ∧ (s.isAnalyzing = true ↔ s.tasks ≠ [])
  ∧ (∀ o : ℕ, s.inFlightController = some o →
      ∃ t ∈ s.tasks, o = t.thisRun ∧ fetchPhases t.phase = true)

theorem split_single {α : Type} {l pre post : List α} {t : α}
    (h : l = pre ++ t :: post) (hl : l.length ≤ 1) :
    pre = [] ∧ post = [] ∧ l = [t] := by
  have hp : pre.length = 0 ∧ post.length = 0 := by
    subst h
    simp only [List.length_append, List.length_cons] at hl
    omega
  have hpre : pre = [] := List.length_eq_zero.mp hp.1
  have hpost : post = [] := List.length_eq_zero.mp hp.2
  refine ⟨hpre, hpost, ?_⟩
  rw [h, hpre, hpost]
  rfl

theorem task_facts {s : OState} (hinv : Inv s) {pre post : List Task} {t : Task}
    (h : s.tasks = pre ++ t :: post) :
    pre = [] ∧ post = [] ∧ s.tasks = [t] ∧ t.thisRun = s.latestRunId
      ∧ s.isAnalyzing = true := by
  obtain ⟨h1, h2, h3, _⟩ := hinv
  obtain ⟨hpre, hpost, hl⟩ := split_single h h2
  refine ⟨hpre, hpost, hl, ?_, ?_⟩
  · exact h1 t (by rw [hl]; exact List.mem_singleton_self t)
  · exact h3.mpr (by rw [hl]; simp)

theorem ctl_none_of_no_tasks {s : OState} (hinv : Inv s) (hl : s.tasks = []) :
    s.inFlightController = none := by
  obtain ⟨_, _, _, h4⟩ := hinv
  cases hctl : s.inFlightController with
  | none => rfl
  | some o =>
    obtain ⟨t', ht', _⟩ := h4 o hctl
    rw [hl] at ht'
    simp at ht'

theorem ctl_none_of_nonfetch {s : OState} (hinv : Inv s) {t : Task}
    (hl : s.tasks = [t]) (hph : fetchPhases t.phase = false) :
    s.inFlightController = none := by
  obtain ⟨_, _, _, h4⟩ := hinv
  cases hctl : s.inFlightController with
  | none => rfl
  | some o =>
    obtain ⟨t', ht', _, hph'⟩ := h4 o hctl
    rw [hl] at ht'
    simp at ht'
    rw [ht'] at hph'
    rw [hph] at hph'
    cases hph'

theorem inv_of_terminal {s : OState} (h_tasks : s.tasks = [])
    (h_flag : s.isAnalyzing = false) (h_ctl : s.inFlightController = none) :
    Inv s := by
  refine ⟨?_, ?_, ?_, ?_⟩
  · intro t ht; rw [h_tasks] at ht; simp at ht
  · rw [h_tasks]; simp
  · rw [h_tasks, h_flag]; simp
  · intro o ho; rw [h_ctl] at ho; cases ho

theorem inv_of_single {s : OState} {t : Task}
    (h_tasks : s.tasks = [t])
    (h_run : t.thisRun = s.latestRunId)
    (h_flag : s.isAnalyzing = true)
    (h_ctl : ∀ o : ℕ, s.inFlightController = some o →
        o = t.thisRun ∧ fetchPhases t.phase = true) :
    Inv s := by
  refine ⟨?_, ?_, ?_, ?_⟩
  · intro t' ht'; rw [h_tasks] at ht'; simp at ht'; rw [ht']; exact h_run
  · rw [h_tasks]; simp
  · rw [h_tasks, h_flag]; simp
  · intro o ho
    obtain ⟨ho1, ho2⟩ := h_ctl o ho
    exact ⟨t, by rw [h_tasks]; simp, ho1, ho2⟩

theorem inv_acceptRun {s : OState} (hinv : Inv s) (hflag : s.isAnalyzing = false) :
    Inv (acceptRun s) := by
  have htasks : s.tasks = [] := by
    obtain ⟨_, _, h3, _⟩ := hinv
    by_contra hne
    rw [h3.mpr hne] at hflag
    cases hflag
  have hctl : s.inFlightController = none := ctl_none_of_no_tasks hinv htasks
  refine inv_of_single (t := ⟨s.latestRunId + 1, .query⟩) ?_ ?_ ?_ ?_ <;>
    simp [acceptRun, htasks, hctl]

theorem inv_failRun {s : OState} {r : ℕ} {msg : String}
    (hr : r = s.latestRunId) (hctl : s.inFlightController = none) :
    Inv (failRun s r [] msg) := by
  refine inv_of_terminal ?_ ?_ ?_ <;> simp [failRun, finishRun, showErrorDom, hr, hctl]

theorem inv_finishRun {s : OState} {r : ℕ}
    (hr : r = s.latestRunId) (hctl : s.inFlightController = none) :
    Inv (finishRun s r []) := by
  refine inv_of_terminal ?_ ?_ ?_ <;> simp [finishRun, hr, hctl]

theorem inv_failBackend {s : OState} {r : ℕ} {msg : String}
    (hr : r = s.latestRunId) :
    Inv (failBackend s r [] msg) := by
  refine inv_of_terminal ?_ ?_ ?_ <;>
    simp [failBackend, finishBackend, finishRun, showErrorDom, hr]

theorem inv_finishBackend {s : OState} {r : ℕ} (hr : r = s.latestRunId) :
    Inv (finishBackend s r []) := by
  refine inv_of_terminal ?_ ?_ ?_ <;> simp [finishBackend, finishRun, hr]

theorem pollStep_frame (s : OState) (url? : Option String) :
    (pollStep s url?).tasks = s.tasks
    ∧ (pollStep s url?).latestRunId = s.latestRunId
    ∧ (pollStep s url?).isAnalyzing = s.isAnalyzing
    ∧ (pollStep s url?).inFlightController = s.inFlightController
    ∧ (pollStep s url?).renders = s.renders
    ∧ (pollStep s url?).errors = s.errors
    ∧ (pollStep s url?).aborts = s.aborts
    ∧ (pollStep s url?).dom = s.dom := by
  unfold pollStep
  cases url? with
  | none => exact ⟨rfl, rfl, rfl, rfl, rfl, rfl, rfl, rfl⟩
  | some url =>
    dsimp only
    split
    · exact ⟨rfl, rfl, rfl, rfl, rfl, rfl, rfl, rfl⟩
    · exact ⟨rfl, rfl, rfl, rfl, rfl, rfl, rfl, rfl⟩

/-! ## Frame lemmas: which fields each transition leaves unchanged -/

theorem queryStep_frame (s : OState) (r : ℕ) (rest : List Task) (found : Bool) :
    (queryStep s r rest found).latestRunId = s.latestRunId
    ∧ (queryStep s r rest found).renders = s.renders
    ∧ (queryStep s r rest found).watchTimerArmed = s.watchTimerArmed := by
  unfold queryStep
  split
  · exact ⟨rfl, rfl, rfl⟩
  · exact ⟨rfl, rfl, rfl⟩

theorem extractStep_frame (s : OState) (r : ℕ) (rest : List Task)
    (settle : Except String (Option ScrapeResponse)) (duration : ℕ) :
    (extractStep s r rest settle duration).latestRunId = s.latestRunId
    ∧ (extractStep s r rest settle duration).renders = s.renders
    ∧ (extractStep s r rest settle duration).watchTimerArmed = s.watchTimerArmed := by
  unfold extractStep
  cases withTimeout settle duration extractTimeoutMs extractTimeoutMsg with
  | error msg => exact ⟨rfl, rfl, rfl⟩
  | ok resp =>
    dsimp only
    split
    · exact ⟨rfl, rfl, rfl⟩
    · cases resp with
      | none => exact ⟨rfl, rfl, rfl⟩
      | some resp' =>
        dsimp only
        split
        · exact ⟨rfl, rfl, rfl⟩
        · exact ⟨rfl, rfl, rfl⟩

theorem fetchStep_frame (s : OState) (r : ℕ) (rest : List Task)
    (outcome : FetchOutcome) :
    (fetchStep s r rest outcome).latestRunId = s.latestRunId
    ∧ (fetchStep s r rest outcome).renders = s.renders
    ∧ (fetchStep s r rest outcome).watchTimerArmed = s.watchTimerArmed := by
  unfold fetchStep
  cases outcome with
  | abortError => exact ⟨rfl, rfl, rfl⟩
  | netError msg => exact ⟨rfl, rfl, rfl⟩
  | resp ok =>
    dsimp only
    split
    · exact ⟨rfl, rfl, rfl⟩
    · split
      · exact ⟨rfl, rfl, rfl⟩
      · exact ⟨rfl, rfl, rfl⟩

theorem jsonFailStep_frame (s : OState) (r : ℕ) (rest : List Task)
    (detail : Option String) :
    (jsonFailStep s r rest detail).latestRunId = s.latestRunId
    ∧ (jsonFailStep s r rest detail).renders = s.renders
    ∧ (jsonFailStep s r rest detail).watchTimerArmed = s.watchTimerArmed :=
  ⟨rfl, rfl, rfl⟩

theorem jsonOkStep_frame (s : OState) (r : ℕ) (rest : List Task)
    (res : Except String AnalysisData) :
    (jsonOkStep s r rest res).latestRunId = s.latestRunId
    ∧ (jsonOkStep s r rest res).renders = s.renders
    ∧ (jsonOkStep s r rest res).watchTimerArmed = s.watchTimerArmed := by
  unfold jsonOkStep
  cases res with
  | error msg => exact ⟨rfl, rfl, rfl⟩
  | ok data =>
    dsimp only
    split
    · exact ⟨rfl, rfl, rfl⟩
    · exact ⟨rfl, rfl, rfl⟩

theorem rafStep_frame (s : OState) (r : ℕ) (rest : List Task)
    (data : AnalysisData) :
    (rafStep s r rest data).latestRunId = s.latestRunId
    ∧ (rafStep s r rest data).watchTimerArmed = s.watchTimerArmed := by
  unfold rafStep
  split
  · exact ⟨rfl, rfl⟩
  · exact ⟨rfl, rfl⟩

/-- `rafStep` either drops a stale run (no render) or appends exactly one
render entry carrying the current `latestRunId`. -/
theorem rafStep_renders (s : OState) (r : ℕ) (rest : List Task)
    (data : AnalysisData) :
    (rafStep s r rest data).renders = s.renders
    ∨ (r = s.latestRunId
        ∧ (rafStep s r rest data).renders = (r, data) :: s.renders) := by
  unfold rafStep
  split
  next h => exact Or.inl rfl
  next h => exact Or.inr ⟨not_ne_iff.mp h, rfl⟩

theorem triggerStep_frame (s : OState) :
    s.latestRunId ≤ (triggerStep s).latestRunId
    ∧ (triggerStep s).renders = s.renders
    ∧ (triggerStep s).watchTimerArmed = s.watchTimerArmed := by
  unfold triggerStep acceptRun
  split
  · exact ⟨Nat.le_refl _, rfl, rfl⟩
  · exact ⟨Nat.le_succ _, rfl, rfl⟩

theorem timerFireStep_frame (s : OState) :
    s.latestRunId ≤ (timerFireStep s).latestRunId
    ∧ (timerFireStep s).renders = s.renders
    ∧ (timerFireStep s).watchTimerArmed = false := by
  unfold timerFireStep acceptRun
  dsimp only
  split
  · exact ⟨Nat.le_refl _, rfl, rfl⟩
  · exact ⟨Nat.le_succ _, rfl, rfl⟩

theorem inv_step {s : OState} {a : Action} {s' : OState}
    (hinv : Inv s) (hs : Step s a s') : Inv s' := by
  cases hs with
  | trigger =>
    unfold triggerStep
    by_cases hb : s.isAnalyzing = true
    · rw [if_pos hb]; exact hinv
    · rw [if_neg hb]
      exact inv_acceptRun hinv (by simpa using hb)
  | queryRes r pre post found h =>
    obtain ⟨hpre, hpost, hl, hr, hflag⟩ := task_facts hinv h
    have hctl : s.inFlightController = none :=
      ctl_none_of_nonfetch hinv hl (by rfl)
    subst hpre; subst hpost
    unfold queryStep
    by_cases hf : found = true
    · rw [if_pos hf]
      exact inv_of_single (t := ⟨r, .extract⟩) (by simp) (by simpa using hr)
        (by simpa using hflag) (by simp [hctl])
    · rw [if_neg hf]
      exact inv_failRun (by simpa using hr) hctl
  | extractRes r pre post settle duration h =>
    obtain ⟨hpre, hpost, hl, hr, hflag⟩ := task_facts hinv h
    have hctl : s.inFlightController = none :=
      ctl_none_of_nonfetch hinv hl (by rfl)
    have hr' : r = s.latestRunId := by simpa using hr
    subst hpre; subst hpost
    unfold extractStep
    cases hw : withTimeout settle duration extractTimeoutMs extractTimeoutMsg with
    | error msg => exact inv_failRun hr' hctl
    | ok resp =>
      dsimp only
      rw [if_neg (by simp [hr'])]
      cases resp with
      | none => exact inv_failRun hr' hctl
      | some resp' =>
        dsimp only
        by_cases hsucc : resp'.success = true
        · rw [if_pos hsucc]
          exact inv_of_single (t := ⟨r, .fetchP⟩) (by simp) (by simpa using hr)
            (by simpa using hflag) (by simp [fetchPhases])
        · rw [if_neg hsucc]
          exact inv_failRun hr' hctl
  | fetchRes r pre post outcome h =>
    obtain ⟨hpre, hpost, hl, hr, hflag⟩ := task_facts hinv h
    have hr' : r = s.latestRunId := by simpa using hr
    subst hpre; subst hpost
    unfold fetchStep
    cases outcome with
    | abortError => exact inv_finishBackend hr'
    | netError msg => exact inv_failBackend hr'
    | resp ok =>
      dsimp only
      rw [if_neg (by simp [hr'])]
      obtain ⟨_, _, _, h4⟩ := hinv
      by_cases hok : ok = true
      · rw [if_pos hok]
        refine inv_of_single (t := ⟨r, .jsonOk⟩) (by simp) (by simpa using hr)
          (by simpa using hflag) ?_
        intro o ho
        obtain ⟨t', ht', heq, _⟩ := h4 o (by simpa using ho)
        rw [hl] at ht'; simp at ht'
        rw [ht'] at heq
        exact ⟨heq, rfl⟩
      · rw [if_neg hok]
        refine inv_of_single (t := ⟨r, .jsonFail⟩) (by simp) (by simpa using hr)
          (by simpa using hflag) ?_
        intro o ho
        obtain ⟨t', ht', heq, _⟩ := h4 o (by simpa using ho)
        rw [hl] at ht'; simp at ht'
        rw [ht'] at heq
        exact ⟨heq, rfl⟩
  | jsonFailRes r pre post detail h =>
    obtain ⟨hpre, hpost, hl, hr, hflag⟩ := task_facts hinv h
    subst hpre; subst hpost
    exact inv_failBackend (by simpa using hr)
  | jsonOkRes r pre post res h =>
    obtain ⟨hpre, hpost, hl, hr, hflag⟩ := task_facts hinv h
    have hr' : r = s.latestRunId := by simpa using hr
    subst hpre; subst hpost
    unfold jsonOkStep
    cases res with
    | error msg => exact inv_failBackend hr'
    | ok data =>
      dsimp only
      rw [if_neg (by simp [hr'])]
      obtain ⟨_, _, _, h4⟩ := hinv
      refine inv_of_single (t := ⟨r, .raf data⟩) (by simp) (by simpa using hr)
        (by simpa using hflag) ?_
      intro o ho
      obtain ⟨t', ht', heq, _⟩ := h4 o (by simpa using ho)
      rw [hl] at ht'; simp at ht'
      rw [ht'] at heq
      exact ⟨heq, rfl⟩
  | rafFire r pre post data h =>
    obtain ⟨hpre, hpost, hl, hr, hflag⟩ := task_facts hinv h
    have hr' : r = s.latestRunId := by simpa using hr
    subst hpre; subst hpost
    unfold rafStep
    rw [if_neg (by simp [hr'])]
    exact inv_finishBackend hr'
  | poll url? =>
    obtain ⟨hT, hL, hA, hC, _, _, _, _⟩ := pollStep_frame s url?
    obtain ⟨h1, h2, h3, h4⟩ := hinv
    refine ⟨?_, ?_, ?_, ?_⟩
    · rw [hT, hL]; exact h1
    · rw [hT]; exact h2
    · rw [hA, hT]; exact h3
    · intro o ho
      rw [hC] at ho
      obtain ⟨t, ht, h⟩ := h4 o ho
      exact ⟨t, by rw [hT]; exact ht, h⟩
  | timerFire harm =>
    unfold timerFireStep
    dsimp only
    obtain ⟨h1, h2, h3, h4⟩ := hinv
    by_cases hb : s.isAnalyzing = true
    · rw [if_pos (by simpa using hb)]
      exact ⟨h1, h2, by simpa using h3, h4⟩
    · rw [if_neg (by simpa using hb)]
      exact inv_acceptRun (s := { s with watchTimerArmed := false })
        ⟨h1, h2, by simpa using h3, h4⟩ (by simpa using hb)

theorem inv_reachable {s : OState} (hs : Reachable s) : Inv s := by
  induction hs with
  | init =>
    refine ⟨?_, ?_, ?_, ?_⟩ <;> simp [initState]
  | step _ hstep ih => exact inv_step ih hstep

/-! ## Concrete executions (used as witnesses and counterexamples) -/

/-- A successful extraction response. -/
def wResp : ScrapeResponse := { success := true, transcript := "a transcript", error := none }

/-- A minimal backend payload. -/
def wData : AnalysisData :=
  { compassion_vs_contempt := none, safety_vs_threat := none, reporting_vs_opinion := none }

/-- Run 1 accepted (suspended at the tab query). -/
def runS1 : OState := triggerStep initState

/-- Run 1 at the extraction await. -/
def runS2 : OState := queryStep runS1 1 [] true

/-- Run 1 at the `fetch` await: its scoring network call is outstanding. -/
def runS3 : OState := extractStep runS2 1 [] (.ok (some wResp)) 0

/-- Run 1 at the success `response.json()` await. -/
def runS4 : OState := fetchStep runS3 1 [] (.resp true)

/-- Run 1 at the `requestAnimationFrame` await. -/
def runS5 : OState := jsonOkStep runS4 1 [] (.ok wData)

/-- Run 1 settled after a successful render. -/
def runS6 : OState := rafStep runS5 1 [] wData

theorem reach_runS1 : Reachable runS1 := .step .init (.trigger initState)

theorem reach_runS2 : Reachable runS2 :=
  .step reach_runS1 (Step.queryRes runS1 1 [] [] true (by decide))

theorem reach_runS3 : Reachable runS3 :=
  .step reach_runS2 (Step.extractRes runS2 1 [] [] (.ok (some wResp)) 0 (by decide))

theorem reach_runS4 : Reachable runS4 :=
  .step reach_runS3 (Step.fetchRes runS3 1 [] [] (.resp true) (by decide))

theorem reach_runS5 : Reachable runS5 :=
  .step reach_runS4 (Step.jsonOkRes runS4 1 [] [] (.ok wData) (by decide))

theorem reach_runS6 : Reachable runS6 :=
  .step reach_runS5 (Step.rafFire runS5 1 [] [] wData (by decide))

/-! ## The claims -/

/-- C3: Busy-reject: a `safeStartAnalysis` call made while `isAnalyzing` is
true returns immediately with no change to any orchestrator state (epoch,
flag, cancellation handle, presentation, tasks), hence no new network call
and no error surfaced to the user. -/
theorem busyRejectNoStateChange (s : OState) (h : s.isAnalyzing = true) :
    triggerStep s = s := by
  unfold triggerStep
  rw [if_pos h]

theorem busyRejectNoStateChange_witness :
    runS1.isAnalyzing = true ∧ triggerStep runS1 = runS1 :=
  ⟨by decide, busyRejectNoStateChange runS1 (by decide)⟩

/-- C9: staleness checkpoints are always current: in every reachable state
every suspended run carries the live `latestRunId`; `latestRunId` cannot
change by any step taken while a run is in flight; and whenever the busy
check passes (`isAnalyzing` false), `inFlightController` is null, so the
abort-previous-handle branch of `safeStartAnalysis` never aborts anything
(`aborts` log unchanged by any trigger). -/
theorem checkpointsAlwaysCurrent (s : OState) (hs : Reachable s) :
    (∀ t ∈ s.tasks, t.thisRun = s.latestRunId)
    ∧ (∀ (a : Action) (s' : OState), Step s a s' → s.tasks ≠ [] →
        s'.latestRunId = s.latestRunId)
    ∧ (s.isAnalyzing = false → s.inFlightController = none)
    ∧ (triggerStep s).aborts = s.aborts := by
  obtain ⟨h1, h2, h3, h4⟩ := inv_reachable hs
  refine ⟨h1, ?_, ?_, ?_⟩
  · intro a s' hstep hne
    cases hstep with
    | trigger =>
      unfold triggerStep
      rw [if_pos (h3.mpr hne)]
    | queryRes r pre post found h => exact (queryStep_frame s r (pre ++ post) found).1
    | extractRes r pre post settle duration h =>
      exact (extractStep_frame s r (pre ++ post) settle duration).1
    | fetchRes r pre post outcome h => exact (fetchStep_frame s r (pre ++ post) outcome).1
    | jsonFailRes r pre post detail h =>
      exact (jsonFailStep_frame s r (pre ++ post) detail).1
    | jsonOkRes r pre post res h => exact (jsonOkStep_frame s r (pre ++ post) res).1
    | rafFire r pre post data h => exact (rafStep_frame s r (pre ++ post) data).1
    | poll url? => exact (pollStep_frame s url?).2.1
    | timerFire harm =>
      unfold timerFireStep
      dsimp only
      rw [if_pos (h3.mpr hne)]
  · intro hfl
    have htasks : s.tasks = [] := by
      by_contra hne
      rw [h3.mpr hne] at hfl
      cases hfl
    exact ctl_none_of_no_tasks ⟨h1, h2, h3, h4⟩ htasks
  · unfold triggerStep acceptRun
    split
    · rfl
    next hb =>
      have htasks : s.tasks = [] := by
        by_contra hne
        exact hb (h3.mpr hne)
      have hctl := ctl_none_of_no_tasks ⟨h1, h2, h3, h4⟩ htasks
      rw [hctl]

theorem checkpointsAlwaysCurrent_witness :
    (∀ t ∈ runS3.tasks, t.thisRun = runS3.latestRunId)
    ∧ (∀ (a : Action) (s' : OState), Step runS3 a s' → runS3.tasks ≠ [] →
        s'.latestRunId = runS3.latestRunId)
    ∧ (runS3.isAnalyzing = false → runS3.inFlightController = none)
    ∧ (triggerStep runS3).aborts = runS3.aborts :=
  checkpointsAlwaysCurrent runS3 reach_runS3

/-- C4: flag always released: in every reachable state, once no run is in
flight (in particular after any run settles through any terminal outcome:
success, timeout, extraction failure, network error, service error, or
silent drop), `isAnalyzing` is false; and every step that empties the task
list leaves `isAnalyzing` false. -/
theorem flagAlwaysReleased (s : OState) (hs : Reachable s) :
    (s.tasks = [] → s.isAnalyzing = false)
    ∧ (∀ (a : Action) (s' : OState), Step s a s' → s'.tasks = [] →
        s'.isAnalyzing = false) := by
  constructor
  · intro ht
    obtain ⟨_, _, h3, _⟩ := inv_reachable hs
    cases hb : s.isAnalyzing with
    | false => rfl
    | true => exact absurd ht (h3.mp hb)
  · intro a s' hstep ht
    obtain ⟨_, _, h3, _⟩ := inv_reachable (.step hs hstep)
    cases hb : s'.isAnalyzing with
    | false => rfl
    | true => exact absurd ht (h3.mp hb)

theorem flagAlwaysReleased_witness :
    (runS6.tasks = [] → runS6.isAnalyzing = false)
    ∧ (∀ (a : Action) (s' : OState), Step runS6 a s' → s'.tasks = [] →
        s'.isAnalyzing = false) :=
  flagAlwaysReleased runS6 reach_runS6

/-- The number of live cancellation handles: `AbortController`s attached to
a still-outstanding network call (a run suspended at the `fetch` await). -/
def liveHandles (s : OState) : ℕ :=
  (s.tasks.filter fun t => decide (t.phase = Phase.fetchP)).length

/-- C6 counterexample: "exactly one CancellationHandle is live at any
instant" fails — the reachable initial state has zero live handles and a
null `inFlightController`. -/
theorem notExactlyOneLiveHandle :
    Reachable initState ∧ liveHandles initState = 0
    ∧ initState.inFlightController = none :=
  ⟨.init, rfl, rfl⟩

/-- C6 amended: at most one cancellation handle is live at any instant
(possibly zero); whenever the busy check passes, `inFlightController` is
already null, and acceptance leaves it null (the previous handle — if one
existed — would be invoked and discarded before any new handle is created,
so no instant has two live handles). -/
theorem atMostOneLiveHandle (s : OState) (hs : Reachable s) :
    liveHandles s ≤ 1
    ∧ (s.isAnalyzing = false → s.inFlightController = none)
    ∧ (acceptRun s).inFlightController = none := by
  obtain ⟨h1, h2, h3, h4⟩ := inv_reachable hs
  refine ⟨?_, ?_, rfl⟩
  · exact le_trans (List.length_filter_le _ _) h2
  · intro hfl
    have htasks : s.tasks = [] := by
      by_contra hne
      rw [h3.mpr hne] at hfl
      cases hfl
    exact ctl_none_of_no_tasks ⟨h1, h2, h3, h4⟩ htasks

theorem atMostOneLiveHandle_witness :
    liveHandles runS3 ≤ 1
    ∧ (runS3.isAnalyzing = false → runS3.inFlightController = none)
    ∧ (acceptRun runS3).inFlightController = none :=
  atMostOneLiveHandle runS3 reach_runS3

/-- A payload with one scored dimension, used to exhibit the render
duplication. -/
def idemData : AnalysisData :=
  { compassion_vs_contempt := none
    safety_vs_threat := some { score := 2, rationale := "" }
    reporting_vs_opinion := none }

/-- C7: `updateResultsUI` is *not* idempotent, contradicting the code's own
"(pure, idempotent)" comment (line 215): it appends to `#llm-dimension-list`
without clearing it, so a second invocation duplicates every dimension
entry. -/
theorem renderNotIdempotent :
    (updateResultsUI idemData (showInitialViewDom baseDom)).dimensionList.length = 1
    ∧ (updateResultsUI idemData
        (updateResultsUI idemData (showInitialViewDom baseDom))).dimensionList.length = 2
    ∧ updateResultsUI idemData (updateResultsUI idemData (showInitialViewDom baseDom))
      ≠ updateResultsUI idemData (showInitialViewDom baseDom) := by
  have h1 : (updateResultsUI idemData
      (showInitialViewDom baseDom)).dimensionList.length = 1 := by decide
  have h2 : (updateResultsUI idemData (updateResultsUI idemData
      (showInitialViewDom baseDom))).dimensionList.length = 2 := by decide
  refine ⟨h1, h2, ?_⟩
  intro hEq
  rw [hEq, h1] at h2
  exact absurd h2 (by decide)

/-- An action is a post-await staleness checkpoint observing a differing
epoch when the token of the suspended run, `r` differs from the live
`latestRunId` *and* the awaited promise resolved normally, so that control
reaches the checkpoint (lines 117, 160, 173 and 181/204 of
`sidepanel.js`). -/
def staleAtCheckpoint (s : OState) : Action → Prop
  | .extractRes r settle duration =>
      r ≠ s.latestRunId
      ∧ ∃ resp, withTimeout settle duration extractTimeoutMs extractTimeoutMsg
          = .ok resp
  | .fetchRes r outcome => r ≠ s.latestRunId ∧ ∃ ok, outcome = .resp ok
  | .jsonOkRes r res => r ≠ s.latestRunId ∧ ∃ data, res = .ok data
  | .rafFire r _ => r ≠ s.latestRunId
  | _ => False

/-- C1: last-epoch-wins rendering: any step can only add render entries
whose run token equals the current `latestRunId` (which is monotone, hence
the highest epoch yet started); and any run observing a differing epoch at
a post-await checkpoint stops silently — it renders nothing, surfaces no
error, and leaves `isAnalyzing` untouched. -/
theorem lastEpochWins (s : OState) (a : Action) (s' : OState)
    (hs : Step s a s') :
    (∀ (e : ℕ) (d : AnalysisData), (e, d) ∈ s'.renders →
        (e, d) ∈ s.renders ∨ e = s.latestRunId)
    ∧ s.latestRunId ≤ s'.latestRunId
    ∧ (staleAtCheckpoint s a →
        s'.renders = s.renders ∧ s'.errors = s.errors
          ∧ s'.isAnalyzing = s.isAnalyzing) := by
  cases hs with
  | trigger =>
    obtain ⟨hm, hrend, _⟩ := triggerStep_frame s
    exact ⟨fun e d hmem => Or.inl (hrend ▸ hmem), hm, fun hf => hf.elim⟩
  | queryRes r pre post found h =>
    obtain ⟨hl, hrend, _⟩ := queryStep_frame s r (pre ++ post) found
    exact ⟨fun e d hmem => Or.inl (hrend ▸ hmem), le_of_eq hl.symm,
      fun hf => hf.elim⟩
  | extractRes r pre post settle duration h =>
    obtain ⟨hl, hrend, _⟩ := extractStep_frame s r (pre ++ post) settle duration
    refine ⟨fun e d hmem => Or.inl (hrend ▸ hmem), le_of_eq hl.symm, ?_⟩
    rintro ⟨hne, resp, hw⟩
    unfold extractStep
    rw [hw]
    dsimp only
    rw [if_pos hne]
    refine ⟨rfl, rfl, ?_⟩
    unfold finishRun
    dsimp only
    rw [if_neg hne]
  | fetchRes r pre post outcome h =>
    obtain ⟨hl, hrend, _⟩ := fetchStep_frame s r (pre ++ post) outcome
    refine ⟨fun e d hmem => Or.inl (hrend ▸ hmem), le_of_eq hl.symm, ?_⟩
    rintro ⟨hne, ok, houtcome⟩
    subst houtcome
    unfold fetchStep
    dsimp only
    rw [if_pos hne]
    refine ⟨rfl, rfl, ?_⟩
    unfold finishBackend finishRun
    dsimp only
    rw [if_neg hne]
  | jsonFailRes r pre post detail h =>
    obtain ⟨hl, hrend, _⟩ := jsonFailStep_frame s r (pre ++ post) detail
    exact ⟨fun e d hmem => Or.inl (hrend ▸ hmem), le_of_eq hl.symm,
      fun hf => hf.elim⟩
  | jsonOkRes r pre post res h =>
    obtain ⟨hl, hrend, _⟩ := jsonOkStep_frame s r (pre ++ post) res
    refine ⟨fun e d hmem => Or.inl (hrend ▸ hmem), le_of_eq hl.symm, ?_⟩
    rintro ⟨hne, data, hres⟩
    subst hres
    unfold jsonOkStep
    dsimp only
    rw [if_pos hne]
    refine ⟨rfl, rfl, ?_⟩
    unfold finishBackend finishRun
    dsimp only
    rw [if_neg hne]
  | rafFire r pre post data h =>
    refine ⟨?_, le_of_eq (rafStep_frame s r (pre ++ post) data).1.symm, ?_⟩
    · intro e d hmem
      cases rafStep_renders s r (pre ++ post) data with
      | inl hEq => exact Or.inl (hEq ▸ hmem)
      | inr hpair =>
        obtain ⟨hr, hEq⟩ := hpair
        rw [hEq] at hmem
        cases List.mem_cons.mp hmem with
        | inl hhd =>
          injection hhd with he hd
          exact Or.inr (he ▸ hr)
        | inr htl => exact Or.inl htl
    · intro hstale
      have hne : r ≠ s.latestRunId := hstale
      unfold rafStep
      rw [if_pos hne]
      refine ⟨rfl, rfl, ?_⟩
      unfold finishBackend finishRun
      dsimp only
      rw [if_neg hne]
  | poll url? =>
    obtain ⟨_, hl, _, _, hrend, _, _, _⟩ := pollStep_frame s url?
    exact ⟨fun e d hmem => Or.inl (hrend ▸ hmem), le_of_eq hl.symm,
      fun hf => hf.elim⟩
  | timerFire harm =>
    obtain ⟨hm, hrend, _⟩ := timerFireStep_frame s
    exact ⟨fun e d hmem => Or.inl (hrend ▸ hmem), hm, fun hf => hf.elim⟩

/-- A state with a superseded run suspended at the render await, used to
exercise the stale-checkpoint branch. -/
def staleS : OState :=
  { initState with
    isAnalyzing := true
    latestRunId := 2
    tasks := [⟨1, .raf wData⟩] }

theorem lastEpochWins_witness :
    (∀ (e : ℕ) (d : AnalysisData), (e, d) ∈ (rafStep staleS 1 [] wData).renders →
        (e, d) ∈ staleS.renders ∨ e = staleS.latestRunId)
    ∧ staleS.latestRunId ≤ (rafStep staleS 1 [] wData).latestRunId
    ∧ (staleAtCheckpoint staleS (.rafFire 1 wData) →
        (rafStep staleS 1 [] wData).renders = staleS.renders
        ∧ (rafStep staleS 1 [] wData).errors = staleS.errors
        ∧ (rafStep staleS 1 [] wData).isAnalyzing = staleS.isAnalyzing) :=
  lastEpochWins staleS (.rafFire 1 wData) (rafStep staleS 1 [] wData)
    (Step.rafFire staleS 1 [] [] wData (by decide))

/-- C2 counterexample: with run A (token 1) suspended at its outstanding
scoring `fetch` (`runS3`), a second trigger — run B — is busy-rejected: the
state is unchanged, the cancellation handle of A is *not* invoked (`aborts`
stays empty through the whole trace), and it is the result of A — not of B —
that is rendered, exactly once, after which `isAnalyzing` is false.  This
refutes the claimed supersession behaviour (that accepting B invokes the
cancellation handle of A, and that the eventual resolution of A does not
call render). -/
theorem supersessionCancelClaimFalsified :
    Reachable runS3
    ∧ runS3.tasks = [⟨1, .fetchP⟩]
    ∧ runS3.inFlightController = some 1
    ∧ triggerStep runS3 = runS3
    ∧ (triggerStep runS3).aborts = []
    ∧ runS6.renders = [(1, wData)]
    ∧ runS6.aborts = []
    ∧ runS6.isAnalyzing = false
    ∧ Reachable runS6 :=
  ⟨reach_runS3, by decide, by decide, rfl, by decide, rfl, by decide, by decide,
    reach_runS6⟩

/-- C2 amended: starting run B while the scoring network call of run A is
outstanding does *not* accept B — the call is busy-rejected with no state
change at all; in particular the cancellation handle of A is never invoked, B
renders nothing, and A proceeds to render its own result (after which
`isAnalyzing` is false, per the flag-release theorem). -/
theorem busyRejectWhileFetchOutstanding (s : OState) (hs : Reachable s)
    (t : Task) (ht : t ∈ s.tasks) (_hp : fetchPhases t.phase = true) :
    triggerStep s = s ∧ (triggerStep s).aborts = s.aborts := by
  obtain ⟨_, _, h3, _⟩ := inv_reachable hs
  have hne : s.tasks ≠ [] := by
    intro hEq
    rw [hEq] at ht
    simp at ht
  have hfix : triggerStep s = s := by
    unfold triggerStep
    rw [if_pos (h3.mpr hne)]
  exact ⟨hfix, by rw [hfix]⟩

theorem busyRejectWhileFetchOutstanding_witness :
    triggerStep runS3 = runS3 ∧ (triggerStep runS3).aborts = runS3.aborts :=
  busyRejectWhileFetchOutstanding runS3 reach_runS3 ⟨1, .fetchP⟩ (by decide)
    (by decide)

/-- C5: extraction timeout: the extraction stage is raced against a
15000 ms timer (`extractTimeoutMs`); when the wrapped promise takes longer,
the run fails with the user-visible timeout message, the flag is released,
no render happens, and an immediately following manual trigger is accepted
and starts a fresh run with the next epoch. -/
theorem extractionTimeout (s : OState) (hs : Reachable s) (r : ℕ)
    (settle : Except String (Option ScrapeResponse)) (duration : ℕ)
    (htask : s.tasks = [⟨r, .extract⟩]) (hdur : extractTimeoutMs < duration) :
    extractTimeoutMs = 15000
    ∧ (extractStep s r [] settle duration).errors = extractTimeoutMsg :: s.errors
    ∧ (extractStep s r [] settle duration).dom.errorVisible = some extractTimeoutMsg
    ∧ (extractStep s r [] settle duration).isAnalyzing = false
    ∧ (extractStep s r [] settle duration).tasks = []
    ∧ (extractStep s r [] settle duration).renders = s.renders
    ∧ (triggerStep (extractStep s r [] settle duration)).isAnalyzing = true
    ∧ (triggerStep (extractStep s r [] settle duration)).latestRunId
        = s.latestRunId + 1
    ∧ (triggerStep (extractStep s r [] settle duration)).tasks
        = [⟨s.latestRunId + 1, .query⟩] := by
  obtain ⟨h1, _, _, _⟩ := inv_reachable hs
  have hr : r = s.latestRunId := h1 ⟨r, .extract⟩ (by rw [htask]; simp)
  subst hr
  have hw : withTimeout settle duration extractTimeoutMs extractTimeoutMsg
      = .error extractTimeoutMsg := by
    unfold withTimeout
    rw [if_pos hdur]
  refine ⟨rfl, ?_, ?_, ?_, ?_, ?_, ?_, ?_, ?_⟩ <;>
    simp [extractStep, hw, failRun, finishRun, showErrorDom, triggerStep, acceptRun]

/-- The timed-out state reached from `runS2` when extraction takes
15001 ms. -/
def wTimeoutS : OState := extractStep runS2 1 [] (.ok (some wResp)) 15001

theorem extractionTimeout_witness :
    extractTimeoutMs = 15000
    ∧ wTimeoutS.errors = extractTimeoutMsg :: runS2.errors
    ∧ wTimeoutS.dom.errorVisible = some extractTimeoutMsg
    ∧ wTimeoutS.isAnalyzing = false
    ∧ wTimeoutS.tasks = []
    ∧ wTimeoutS.renders = runS2.renders
    ∧ (triggerStep wTimeoutS).isAnalyzing = true
    ∧ (triggerStep wTimeoutS).latestRunId = runS2.latestRunId + 1
    ∧ (triggerStep wTimeoutS).tasks = [⟨runS2.latestRunId + 1, .query⟩] :=
  extractionTimeout runS2 reach_runS2 1 (.ok (some wResp)) 15001 (by decide)
    (by decide)

/-- C8: watcher debounce and busy policy: the poll interval and debounce
delay are 1000 ms and 600 ms; a debounce timer firing while the
orchestrator is analyzing consumes the timer and starts nothing; a detected
change on a matching URL records the identifiers and (re)arms the timer;
and the only step that can arm a disarmed timer is a poll tick that
detected a navigation change on a matching URL — in particular the watcher
never re-arms itself after a busy drop. -/
theorem watcherDebounceBusyPolicy :
    pollIntervalMs = 1000
    ∧ debounceMs = 600
    ∧ (∀ s : OState, s.isAnalyzing = true →
        timerFireStep s = { s with watchTimerArmed := false })
    ∧ (∀ (s : OState) (url : String),
        changeDetected s url = true → matchesWatchUrl url = true →
        pollStep s (some url)
          = { s with lastUrl := some url, lastVideoId := extractVideoId url,
                     watchTimerArmed := true })
    ∧ (∀ (s : OState) (a : Action) (s' : OState), Step s a s' →
        s.watchTimerArmed = false → s'.watchTimerArmed = true →
        ∃ url, a = .poll (some url)
          ∧ changeDetected s url = true ∧ matchesWatchUrl url = true) := by
  refine ⟨rfl, rfl, ?_, ?_, ?_⟩
  · intro s hb
    unfold timerFireStep
    dsimp only
    rw [if_pos hb]
  · intro s url hc hm
    unfold pollStep
    dsimp only
    rw [hc, hm]
    rfl
  · intro s a s' hstep hfalse htrue
    cases hstep with
    | trigger =>
      rw [(triggerStep_frame s).2.2, hfalse] at htrue
      cases htrue
    | queryRes r pre post found h =>
      rw [(queryStep_frame s r (pre ++ post) found).2.2, hfalse] at htrue
      cases htrue
    | extractRes r pre post settle duration h =>
      rw [(extractStep_frame s r (pre ++ post) settle duration).2.2, hfalse]
        at htrue
      cases htrue
    | fetchRes r pre post outcome h =>
      rw [(fetchStep_frame s r (pre ++ post) outcome).2.2, hfalse] at htrue
      cases htrue
    | jsonFailRes r pre post detail h =>
      rw [(jsonFailStep_frame s r (pre ++ post) detail).2.2, hfalse] at htrue
      cases htrue
    | jsonOkRes r pre post res h =>
      rw [(jsonOkStep_frame s r (pre ++ post) res).2.2, hfalse] at htrue
      cases htrue
    | rafFire r pre post data h =>
      rw [(rafStep_frame s r (pre ++ post) data).2, hfalse] at htrue
      cases htrue
    | poll url? =>
      cases url? with
      | none =>
        have h2 : s.watchTimerArmed = true := htrue
        rw [hfalse] at h2
        cases h2
      | some url =>
        unfold pollStep at htrue
        dsimp only at htrue
        by_cases hcond : (changeDetected s url && matchesWatchUrl url) = true
        · obtain ⟨hc, hm⟩ := Bool.and_eq_true_iff.mp hcond
          exact ⟨url, rfl, hc, hm⟩
        · rw [if_neg hcond, hfalse] at htrue
          cases htrue
    | timerFire harm =>
      rw [(timerFireStep_frame s).2.2] at htrue
      cases htrue

theorem watcherDebounceBusyPolicy_witness :
    timerFireStep runS1 = { runS1 with watchTimerArmed := false } :=
  watcherDebounceBusyPolicy.2.2.1 runS1 (by decide)

/-- C10: the watcher can only trigger for YouTube video URLs: a poll tick
whose URL fails the `youtube.com/watch | youtu.be/` substring test changes
nothing at all (no identifiers recorded, no debounce timer armed, hence no
run request), a tick with no URL changes nothing, a poll tick never starts
a run by itself, and arming the timer requires a matching URL; the resource
identifier extracted and compared is the `v=` query parameter, or failing
that the `youtu.be/` path segment, as the sample evaluations show. -/
theorem watcherOnlyYouTubeUrls :
    (∀ (s : OState) (url : String), matchesWatchUrl url = false →
        pollStep s (some url) = s)
    ∧ (∀ s : OState, pollStep s none = s)
    ∧ (∀ (s : OState) (url? : Option String),
        (pollStep s url?).tasks = s.tasks
        ∧ (pollStep s url?).latestRunId = s.latestRunId
        ∧ (pollStep s url?).renders = s.renders)
    ∧ (∀ (s : OState) (url : String), s.watchTimerArmed = false →
        (pollStep s (some url)).watchTimerArmed = true →
        matchesWatchUrl url = true ∧ changeDetected s url = true)
    ∧ extractVideoId "https://www.youtube.com/watch?v=abc123&t=42" = some "abc123"
    ∧ extractVideoId "https://youtu.be/XYZ?t=1" = some "XYZ"
    ∧ extractVideoId "https://example.com/page" = none
    ∧ matchesWatchUrl "https://www.youtube.com/watch?v=abc123" = true
    ∧ matchesWatchUrl "https://youtu.be/XYZ" = true
    ∧ matchesWatchUrl "https://example.com/?v=trick" = false := by
  refine ⟨?_, ?_, ?_, ?_, by decide, by decide, by decide, by decide, by decide,
    by decide⟩
  · intro s url hm
    unfold pollStep
    dsimp only
    rw [hm]
    simp
  · intro s
    rfl
  · intro s url?
    obtain ⟨hT, hL, _, _, hR, _, _, _⟩ := pollStep_frame s url?
    exact ⟨hT, hL, hR⟩
  · intro s url hfalse htrue
    unfold pollStep at htrue
    dsimp only at htrue
    by_cases hcond : (changeDetected s url && matchesWatchUrl url) = true
    · obtain ⟨hc, hm⟩ := Bool.and_eq_true_iff.mp hcond
      exact ⟨hm, hc⟩
    · rw [if_neg hcond, hfalse] at htrue
      cases htrue

theorem watcherOnlyYouTubeUrls_witness :
    pollStep initState (some "https://example.com/page") = initState :=
  watcherOnlyYouTubeUrls.1 initState "https://example.com/page" (by decide)

end SidePanel
